import Mathlib

/-!
Verification of `owl2json.py`, a script converting an OWL/RDF ontology into a
denormalized JSON document.

The embedding models Python strings as Lean `String`s, with structural
character-list helpers mirroring the Python primitives actually used
(`str.strip`, `str.split`, `str.startswith`, `in` substring test,
`str.split(sep)[0]`, `str.split(sep)[-1]`).  Python dictionaries that are
iterated in insertion order are modelled as association lists with
insertion-order updates.  RDF nodes are modelled as an inductive type with
URI, blank-node and literal constructors, matching the `isinstance` checks in
the script.  File I/O is modelled by passing file contents (`Option` of the
line list for a possibly missing file); the script's exception on a malformed
header is modelled with `Except`.
-/

deriving instance DecidableEq for Except

namespace PanRes

/-! ## Character-list string primitives (models of the Python primitives) -/

/-- Model of Python `str.strip()`: drop leading and trailing whitespace. -/
def stripChars (s : List Char) : List Char :=
  ((s.dropWhile Char.isWhitespace).reverse.dropWhile Char.isWhitespace).reverse

/-- Helper for whitespace tokenization: accumulates the current token (reversed). -/
def tokensAux : List Char → List Char → List (List Char)
  | [], cur => if cur = [] then [] else [cur.reverse]
  | a :: as, cur =>
    if a.isWhitespace then
      if cur = [] then tokensAux as [] else cur.reverse :: tokensAux as []
    else
      tokensAux as (a :: cur)

/-- Model of Python `str.split()` with no argument: whitespace-delimited tokens,
empty tokens discarded. -/
def tokens (s : List Char) : List (List Char) :=
  tokensAux s []

/-- Model of the Python substring test `pat in s`. -/
def containsSub (pat : List Char) : List Char → Bool
  | [] => pat.isPrefixOf []
  | a :: as => pat.isPrefixOf (a :: as) || containsSub pat as

/-- Model of Python `s.split(pat)[0]`: the text before the first occurrence of
`pat`, or all of `s` when `pat` does not occur. -/
def beforeFirst (pat : List Char) : List Char → List Char
  | [] => []
  | a :: as => if pat.isPrefixOf (a :: as) then [] else a :: beforeFirst pat as

/-- Model of Python `s.split(c)[-1]`: the text after the last occurrence of the
character `c`, or all of `s` when `c` does not occur. -/
def afterLastSep (c : Char) (s : List Char) : List Char :=
  (s.reverse.takeWhile (fun a => a ≠ c)).reverse

/-! ## Data model -/

/-- An RDF node as distinguished by the script's `isinstance` checks:
a concrete resource (`URIRef`), a blank node (`BNode`), or a `Literal`. -/
inductive Node where
  | uri (s : String)
  | blank (n : Nat)
  | lit (s : String)
deriving DecidableEq, Repr

/-- An RDF triple.  Predicates are always `URIRef`s in `rdflib`, so the
predicate is carried as its IRI string. -/
structure Triple where
  subj : Node
  pred : String
  obj : Node
deriving DecidableEq, Repr

/-- The script's representation of a property value: its string value and an
is-literal flag (lines 145–150). -/
structure ObjVal where
  value : String
  is_literal : Bool
deriving DecidableEq, Repr

/-- Whether a node is a blank node. -/
def Node.isBlank : Node → Bool
  | .blank _ => true
  | _ => false

/-! ## URI Normalizer (`clean_uri`, lines 24–30 and 49–55) -/

/-- The `NAMESPACES` table, in the script's insertion order. -/
def NAMESPACES : List (String × String) :=
  [("http://myonto.com/PanResOntology.owl#", ""),
   ("http://www.w3.org/2001/XMLSchema#", "xsd:"),
   ("http://www.w3.org/1999/02/22-rdf-syntax-ns#", "rdf:"),
   ("http://www.w3.org/2000/01/rdf-schema#", "rdfs:"),
   ("http://www.w3.org/2002/07/owl#", "owl:")]

/-- The local fragment: `uri_str.split('#')[-1] if '#' in uri_str else
uri_str.split('/')[-1]`. -/
def fragmentOf (uri_str : String) : String :=
  if uri_str.data.contains '#' then ⟨afterLastSep '#' uri_str.data⟩
  else ⟨afterLastSep '/' uri_str.data⟩

/-- The URI normalizer `clean_uri`: scan `NAMESPACES` in order; on the first
namespace the IRI starts with, return the short form; otherwise return the IRI
unchanged. -/
def clean_uri (uri_str : String) : String :=
  match NAMESPACES.find? (fun nsp => nsp.1.data.isPrefixOf uri_str.data) with
  | some nsp => if nsp.2 = "" then fragmentOf uri_str else nsp.2 ++ fragmentOf uri_str
  | none => uri_str

/-! ## FASTA Loader (`parse_fasta`, lines 57–94) -/

/-- Header-token to record-identifier rule (lines 79–84): if the token contains
both `_v` and `_identical`, truncate at the first `_v`; otherwise keep it. -/
def fastaId (header : String) : String :=
  if containsSub "_v".data header.data && containsSub "_identical".data header.data
  then ⟨beforeFirst "_v".data header.data⟩
  else header

/-- Python `dict` assignment `d[k] = v`: update in place when the key exists
(keeping its position), otherwise append at the end. -/
def dictInsert (m : List (String × String)) (k v : String) : List (String × String) :=
  if m.any (fun p => p.1 = k) then
    m.map (fun p => if p.1 = k then (p.1, v) else p)
  else m ++ [(k, v)]

/-- Model of the record save `if current_id: sequences[current_id] =
join(current_seq)` (lines 75–76 and 90–91).  Python truthiness: `None` and the
empty string are falsy. -/
def saveSeq (seqs : List (String × String)) (cid : Option String) (acc : List Char) :
    List (String × String) :=
  match cid with
  | none => seqs
  | some c => if c = "" then seqs else dictInsert seqs c ⟨acc⟩

/-- The line loop of `parse_fasta` (lines 70–91).  State: remaining lines,
`current_id`, accumulated `current_seq` characters, and the `sequences` dict.
`line[1:].split()[0]` on a header with no token raises `IndexError`, modelled
as `Except.error`. -/
def parseFastaLines : List String → Option String → List Char →
    List (String × String) → Except Unit (List (String × String))
  | [], cid, acc, seqs => Except.ok (saveSeq seqs cid acc)
  | l :: rest, cid, acc, seqs =>
    let s := stripChars l.data
    if s.head? = some '>' then
      let seqs1 := saveSeq seqs cid acc
      match tokens s.tail with
      | [] => Except.error ()
      | t :: _ => parseFastaLines rest (some (fastaId ⟨t⟩)) [] seqs1
    else parseFastaLines rest cid (acc ++ s) seqs

/-- The body of `parse_fasta` applied to the contents of an existing file. -/
def pyParseFasta (lines : List String) : Except Unit (List (String × String)) :=
  parseFastaLines lines none [] []

/-- The loader `parse_fasta` (lines 57–94), with the file modelled as `Option`
of its line list (`none` = the path does not exist).  The `Bool` records
whether the missing-file warning was printed. -/
def parse_fasta (file : Option (List String)) :
    Bool × Except Unit (List (String × String)) :=
  match file with
  | none => (true, Except.ok [])
  | some lines => (false, pyParseFasta lines)

/-! ## Triple Collector (lines 134–161) -/

/-- The per-subject aggregate `{'types': [...], 'properties': {...}}`.
`properties` is an association list in predicate-first-seen order; each value
list is in triple-encounter order. -/
structure SubjProps where
  types : List String
  properties : List (String × List ObjVal)
deriving DecidableEq, Repr

/-- Append a value to `properties[pred]`, creating the key at the end when
absent (`defaultdict(list)` behavior). -/
def propsInsert (ps : List (String × List ObjVal)) (k : String) (v : ObjVal) :
    List (String × List ObjVal) :=
  if ps.any (fun p => p.1 = k) then
    ps.map (fun p => if p.1 = k then (p.1, p.2 ++ [v]) else p)
  else ps ++ [(k, [v])]

/-- Update the entry of `sid` in the subject dict, creating a fresh empty
entry at the end when absent (outer `defaultdict` behavior). -/
def spUpdate (sp : List (String × SubjProps)) (sid : String) (f : SubjProps → SubjProps) :
    List (String × SubjProps) :=
  if sp.any (fun p => p.1 = sid) then
    sp.map (fun p => if p.1 = sid then (p.1, f p.2) else p)
  else sp ++ [(sid, f ⟨[], []⟩)]

/-- The object representation (lines 145–152): literal → literal `ObjVal`,
resource → shortened-IRI `ObjVal`, blank node → skipped. -/
def objData : Node → Option ObjVal
  | .lit s => some ⟨s, true⟩
  | .uri s => some ⟨clean_uri s, false⟩
  | .blank _ => none

/-- Process one triple (the body of the loop at lines 138–159): skip non-`URIRef`
subjects and blank-node objects; otherwise append the object value to the
subject's property list, and to its type list when the predicate is `rdf:type`. -/
def addTriple (sp : List (String × SubjProps)) (t : Triple) : List (String × SubjProps) :=
  match t.subj with
  | .uri s =>
    match objData t.obj with
    | none => sp
    | some od =>
      let sid := clean_uri s
      let pid := clean_uri t.pred
      spUpdate sp sid (fun props =>
        let props1 : SubjProps := ⟨props.types, propsInsert props.properties pid od⟩
        if pid = "rdf:type" then ⟨props1.types ++ [od.value], props1.properties⟩
        else props1)
  | _ => sp

/-- The first pass: fold all triples into `subject_props`. -/
def collectTriples (ts : List Triple) : List (String × SubjProps) :=
  ts.foldl addTriple []

/-- Python `props['properties'][k]` read guarded by `k in props['properties']`:
the stored list when the key is present, `[]` otherwise. -/
def lookupList (ps : List (String × List ObjVal)) (k : String) : List ObjVal :=
  match ps.find? (fun kv => kv.1 = k) with
  | some kv => kv.2
  | none => []

/-! ## Category Classifier (lines 163–196) -/

/-- The role set for one role predicate: every non-literal object value of that
predicate across all collected subjects (lines 174–193).  The script stores a
`set`; only membership is consumed, so a list with possible duplicates models
it. -/
def roleValues (sp : List (String × SubjProps)) (role : String) : List String :=
  sp.flatMap (fun q =>
    ((lookupList q.2.properties role).filter (fun v => !v.is_literal)).map (fun v => v.value))

/-! ## Document Builder (lines 198–258) -/

/-- One entry of the output `subjects` mapping (lines 212–229).  The optional
sequence fields are `none` when the corresponding JSON key is absent. -/
structure SubjectEntry where
  id : String
  label : String
  types : List String
  properties : List (String × List ObjVal)
  gene_sequence : Option String
  protein_sequence : Option String
deriving DecidableEq, Repr

/-- Build one subject entry (lines 207–229): label from the first `rdfs:label`
value when present and non-empty, else the identifier; types and properties
copied verbatim; sequences attached when the identifier is a key of the
corresponding FASTA mapping. -/
def buildEntry (geneSeqs proteinSeqs : List (String × String)) (sid : String)
    (props : SubjProps) : SubjectEntry :=
  let label :=
    match lookupList props.properties "rdfs:label" with
    | [] => sid
    | v :: _ => v.value
  ⟨sid, label, props.types, props.properties,
    (geneSeqs.find? (fun p => p.1 = sid)).map (fun p => p.2),
    (proteinSeqs.find? (fun p => p.1 = sid)).map (fun p => p.2)⟩

/-- The six category lists of the output `categories` object. -/
structure Categories where
  PanGene : List String
  OriginalGene : List String
  AntibioticClass : List String
  Phenotype : List String
  Mechanism : List String
  Database : List String
deriving DecidableEq, Repr

/-- The gene-like types tested for the `PanGene` category (line 237). -/
def pangene_types : List String :=
  ["PanGene", "AntimicrobialResistanceGene", "BiocideResistanceGene", "MetalResistanceGene"]

/-- The output document: `subjects`, `categories`, and the two metadata
counters. -/
structure Document where
  subjects : List (String × SubjectEntry)
  categories : Categories
  total_triples : Nat
  total_subjects : Nat
deriving DecidableEq, Repr

/-- The pure core of `convert_owl_to_json` (lines 96–258): collect triples,
derive the four role sets, then build the subject entries and category lists
in one ordered sweep over the collected subjects.  The script appends to each
category list while iterating `subject_props`, which is the same list as the
order-preserving filter used here. -/
def convert_owl_to_json (ts : List Triple) (geneSeqs proteinSeqs : List (String × String)) :
    Document :=
  let sp := collectTriples ts
  let classS := roleValues sp "has_resistance_class"
  let phenoS := roleValues sp "has_predicted_phenotype"
  let mechS := roleValues sp "has_mechanism_of_resistance"
  let dbS := roleValues sp "is_from_database"
  ⟨sp.map (fun q => (q.1, buildEntry geneSeqs proteinSeqs q.1 q.2)),
   ⟨(sp.filter (fun q => q.2.types.any (fun t => pangene_types.contains t))).map (fun q => q.1),
    (sp.filter (fun q => q.2.types.contains "OriginalGene")).map (fun q => q.1),
    (sp.filter (fun q => classS.contains q.1)).map (fun q => q.1),
    (sp.filter (fun q => phenoS.contains q.1)).map (fun q => q.1),
    (sp.filter (fun q => mechS.contains q.1)).map (fun q => q.1),
    (sp.filter (fun q => dbS.contains q.1)).map (fun q => q.1)⟩,
   ts.length,
   sp.length⟩

/-! ## Spec-side predicates and the round-trip re-derivation -/

/-- The claim's role condition: `x` occurs as a non-literal object value of the
role predicate in some collected subject's properties. -/
def roleOccurs (ts : List Triple) (role x : String) : Prop :=
  ∃ q ∈ collectTriples ts, ∃ v ∈ lookupList q.2.properties role,
    v.is_literal = false ∧ v.value = x

/-- Role values re-derived from the OUTPUT document's subject entries
(spec §4.4 applied to the produced JSON), for the round-trip claim. -/
def docRoleValues (subjects : List (String × SubjectEntry)) (role : String) : List String :=
  subjects.flatMap (fun q =>
    ((lookupList q.2.properties role).filter (fun v => !v.is_literal)).map (fun v => v.value))

/-- Category lists re-derived from the OUTPUT document's subject entries by the
rules of spec §4.4 / §4.5, for the round-trip claim. -/
def rederiveCategories (subjects : List (String × SubjectEntry)) : Categories :=
  let classS := docRoleValues subjects "has_resistance_class"
  let phenoS := docRoleValues subjects "has_predicted_phenotype"
  let mechS := docRoleValues subjects "has_mechanism_of_resistance"
  let dbS := docRoleValues subjects "is_from_database"
  ⟨(subjects.filter (fun q => q.2.types.any (fun t => pangene_types.contains t))).map (fun q => q.1),
   (subjects.filter (fun q => q.2.types.contains "OriginalGene")).map (fun q => q.1),
   (subjects.filter (fun q => classS.contains q.1)).map (fun q => q.1),
   (subjects.filter (fun q => phenoS.contains q.1)).map (fun q => q.1),
   (subjects.filter (fun q => mechS.contains q.1)).map (fun q => q.1),
   (subjects.filter (fun q => dbS.contains q.1)).map (fun q => q.1)⟩

/-! ## Concrete inputs used by the witnesses (the spec's §8 scenario) -/

/-- The §8 scenario graph: `(ex:Gene1, rdf:type, ex:PanGene)`,
`(ex:Gene1, ex:has_resistance_class, ex:Beta)`, plus an `rdfs:label` literal
for `Beta`. -/
def ts0 : List Triple :=
  [⟨.uri "ex:Gene1", "http://www.w3.org/1999/02/22-rdf-syntax-ns#type",
    .uri "http://myonto.com/PanResOntology.owl#PanGene"⟩,
   ⟨.uri "ex:Gene1", "http://myonto.com/PanResOntology.owl#has_resistance_class",
    .uri "http://myonto.com/PanResOntology.owl#Beta"⟩,
   ⟨.uri "http://myonto.com/PanResOntology.owl#Beta",
    "http://www.w3.org/2000/01/rdf-schema#label", .lit "Beta-lactamase"⟩]

/-- The entry the scenario document assigns to `ex:Gene1`. -/
def entryGene1 : SubjectEntry :=
  ⟨"ex:Gene1", "ex:Gene1", ["PanGene"],
   [("rdf:type", [⟨"PanGene", false⟩]),
    ("has_resistance_class", [⟨"Beta", false⟩])], none, none⟩

/-- The entry the scenario document assigns to `Beta`. -/
def entryBeta : SubjectEntry :=
  ⟨"Beta", "Beta-lactamase", [],
   [("rdfs:label", [⟨"Beta-lactamase", true⟩])], none, none⟩

/-- The claim's version of the FASTA dedup condition: the token contains a
`_v` marker followed LATER by an `_identical` marker.  (The script itself only
tests that both substrings occur somewhere, in any order.) -/
def vThenIdentical : List Char → Bool
  | [] => false
  | a :: as =>
    ("_v".data.isPrefixOf (a :: as) && containsSub "_identical".data ((a :: as).drop 2))
      || vThenIdentical as

/-! ## Helper lemmas: strings and the FASTA loader -/

theorem dropWhile_head_false {p : Char → Bool} :
    ∀ {l : List Char} {a : Char} {r : List Char}, l.dropWhile p = a :: r → p a = false := by
  intro l
  induction l with
  | nil => intro a r h; simp [List.dropWhile] at h
  | cons x xs ih =>
    intro a r h
    by_cases hx : p x = true
    · rw [List.dropWhile_cons_of_pos hx] at h
      exact ih h
    · rw [List.dropWhile_cons_of_neg hx] at h
      injection h with h1 _
      subst h1
      exact Bool.not_eq_true _ ▸ (by simpa using hx)

/-- A stripped line has no trailing whitespace: if it reads `'>' :: r` with `r`
all whitespace then `r` is empty. -/
theorem strip_gt_all_ws {s r : List Char}
    (h : stripChars s = '>' :: r) (hr : ∀ c ∈ r, c.isWhitespace = true) : r = [] := by
  by_contra hne
  cases hw : r.reverse with
  | nil => exact hne (by simpa using congrArg List.reverse hw)
  | cons b w =>
    have hbr : b ∈ r := by
      have hb : b ∈ r.reverse := by rw [hw]; exact List.mem_cons_self _ _
      simpa using hb
    have hu : (s.dropWhile Char.isWhitespace).reverse.dropWhile Char.isWhitespace
        = b :: (w ++ ['>']) := by
      have h2 : ((s.dropWhile Char.isWhitespace).reverse.dropWhile Char.isWhitespace).reverse.reverse
          = ('>' :: r).reverse := congrArg List.reverse h
      rw [List.reverse_reverse] at h2
      rw [h2]
      simp [hw]
    have : b.isWhitespace = false := dropWhile_head_false hu
    rw [hr b hbr] at this
    cases this

theorem tokensAux_ne_nil : ∀ (s cur : List Char), cur ≠ [] → tokensAux s cur ≠ []
  | [], cur, h => by simp [tokensAux, h]
  | a :: as, cur, h => by
    by_cases hw : a.isWhitespace = true
    · simp [tokensAux, hw, h]
    · simp only [tokensAux, Bool.not_eq_true] at hw ⊢
      rw [hw]
      simp only [Bool.false_eq_true, if_false]
      exact tokensAux_ne_nil as (a :: cur) (by simp)

theorem tokens_nil_iff : ∀ (s : List Char), tokens s = [] ↔ ∀ c ∈ s, c.isWhitespace = true := by
  intro s
  induction s with
  | nil => simp [tokens, tokensAux]
  | cons a as ih =>
    by_cases hw : a.isWhitespace = true
    · simp only [tokens, tokensAux, hw, if_true, if_pos rfl]
      simp only [tokens] at ih
      rw [ih]
      simp [hw]
    · constructor
      · intro h
        exact absurd h (by
          simp only [tokens, tokensAux, Bool.not_eq_true] at hw ⊢
          rw [hw]
          simp only [Bool.false_eq_true, if_false]
          exact tokensAux_ne_nil as [a] (by simp))
      · intro h
        exact absurd (h a (List.mem_cons_self _ _)) hw

/-- A header line whose stripped form is exactly `">"` is precisely a line on
which the token extraction `line[1:].split()[0]` has no token. -/
theorem strip_eq_gt_iff {l : String} :
    stripChars l.data = ['>'] ↔
      (stripChars l.data).head? = some '>' ∧ tokens (stripChars l.data).tail = [] := by
  constructor
  · intro h
    rw [h]
    exact ⟨rfl, by simp [tokens, tokensAux]⟩
  · rintro ⟨h1, h2⟩
    cases hs : stripChars l.data with
    | nil => rw [hs] at h1; cases h1
    | cons c r =>
      rw [hs] at h1 h2
      injection h1 with h1
      subst h1
      have hr : r = [] := strip_gt_all_ws hs ((tokens_nil_iff r).mp h2)
      rw [hr]

/-- The line loop raises the `IndexError` exactly when some line strips to the
bare `">"`. -/
theorem parseFastaLines_error_iff (lines : List String) :
    ∀ (cid : Option String) (acc : List Char) (seqs : List (String × String)),
      parseFastaLines lines cid acc seqs = Except.error () ↔
        ∃ l ∈ lines, stripChars l.data = ['>'] := by
  induction lines with
  | nil => intro cid acc seqs; simp [parseFastaLines]
  | cons l rest ih =>
    intro cid acc seqs
    simp only [parseFastaLines]
    by_cases hh : (stripChars l.data).head? = some '>'
    · rw [if_pos hh]
      cases htok : tokens (stripChars l.data).tail with
      | nil =>
        constructor
        · intro _
          exact ⟨l, List.mem_cons_self _ _, strip_eq_gt_iff.mpr ⟨hh, htok⟩⟩
        · intro _; rfl
      | cons t ts' =>
        rw [ih]
        constructor
        · intro ⟨x, hx, hxs⟩
          exact ⟨x, List.mem_cons_of_mem _ hx, hxs⟩
        · rintro ⟨x, hx, hxs⟩
          rcases List.mem_cons.mp hx with rfl | hx2
          · rw [(strip_eq_gt_iff.mp hxs).2] at htok
            cases htok
          · exact ⟨x, hx2, hxs⟩
    · rw [if_neg hh]
      rw [ih]
      constructor
      · intro ⟨x, hx, hxs⟩
        exact ⟨x, List.mem_cons_of_mem _ hx, hxs⟩
      · rintro ⟨x, hx, hxs⟩
        rcases List.mem_cons.mp hx with rfl | hx2
        · exact absurd (strip_eq_gt_iff.mp hxs).1 hh
        · exact ⟨x, hx2, hxs⟩

/-- Running the loop over non-header lines only: they are stripped and
concatenated onto the accumulator, and the final save happens at end of file. -/
theorem parseFastaLines_no_header (body : List String) :
    ∀ (cid : Option String) (acc : List Char) (seqs : List (String × String)),
      (∀ l ∈ body, (stripChars l.data).head? ≠ some '>') →
      parseFastaLines body cid acc seqs =
        Except.ok (saveSeq seqs cid (acc ++ (body.map (fun l => stripChars l.data)).flatten)) := by
  induction body with
  | nil => intro cid acc seqs _; simp [parseFastaLines]
  | cons l rest ih =>
    intro cid acc seqs h
    have hl := h l (List.mem_cons_self _ _)
    simp only [parseFastaLines]
    rw [if_neg hl]
    rw [ih _ _ _ (fun x hx => h x (List.mem_cons_of_mem _ hx))]
    simp [List.append_assoc]

/-! ## Helper lemmas: the collector's key discipline -/

theorem spUpdate_keys (sp : List (String × SubjProps)) (sid : String) (f : SubjProps → SubjProps) :
    (spUpdate sp sid f).map (fun q => q.1) =
      if sp.any (fun p => p.1 = sid) then sp.map (fun q => q.1)
      else sp.map (fun q => q.1) ++ [sid] := by
  unfold spUpdate
  by_cases h : sp.any (fun p => p.1 = sid) = true
  · rw [if_pos h, if_pos h, List.map_map]
    apply List.map_congr_left
    intro q _
    by_cases hq : q.1 = sid <;> simp [hq]
  · rw [if_neg h, if_neg h, List.map_append]
    rfl

theorem keys_nodup_addTriple {sp : List (String × SubjProps)} (t : Triple)
    (h : (sp.map (fun q => q.1)).Nodup) : ((addTriple sp t).map (fun q => q.1)).Nodup := by
  rcases ht : t.subj with s | n | s
  · simp only [addTriple, ht]
    cases hobj : objData t.obj with
    | none => exact h
    | some od =>
      rw [spUpdate_keys]
      by_cases hc : sp.any (fun p => p.1 = clean_uri s) = true
      · rw [if_pos hc]; exact h
      · rw [if_neg hc]
        rw [List.nodup_append]
        refine ⟨h, List.nodup_singleton _, ?_⟩
        intro x hx hx1
        rcases List.mem_map.mp hx with ⟨q, hq, rfl⟩
        have hxe := List.mem_singleton.mp hx1
        exact hc (List.any_eq_true.mpr ⟨q, hq, by simp [hxe]⟩)
  · simpa [addTriple, ht] using h
  · simpa [addTriple, ht] using h

theorem keys_nodup_collect (ts : List Triple) :
    ((collectTriples ts).map (fun q => q.1)).Nodup := by
  have main : ∀ (l : List Triple) (sp : List (String × SubjProps)),
      (sp.map (fun q => q.1)).Nodup → ((l.foldl addTriple sp).map (fun q => q.1)).Nodup := by
    intro l
    induction l with
    | nil => intro sp h; simpa using h
    | cons t rest ih => intro sp h; exact ih _ (keys_nodup_addTriple t h)
  exact main ts [] (by simp)

/-- In a list with no duplicate keys, a key determines its value. -/
theorem key_inj {α : Type} {sp : List (String × α)} (h : (sp.map (fun q => q.1)).Nodup)
    {k : String} {a b : α} (ha : (k, a) ∈ sp) (hb : (k, b) ∈ sp) : a = b := by
  induction sp with
  | nil => cases ha
  | cons x xs ih =>
    rw [List.map_cons, List.nodup_cons] at h
    rcases List.mem_cons.mp ha with ha1 | ha1 <;> rcases List.mem_cons.mp hb with hb1 | hb1
    · rw [← ha1] at hb1
      exact (Prod.mk.inj hb1).2.symm
    · exfalso
      apply h.1
      rw [← ha1]
      exact List.mem_map_of_mem (fun q => q.1) hb1
    · exfalso
      apply h.1
      rw [← hb1]
      exact List.mem_map_of_mem (fun q => q.1) ha1
    · exact ih h.2 ha1 hb1

theorem mem_filter_keys {α : Type} (sp : List (String × α)) (p : String × α → Bool) (x : String) :
    x ∈ (sp.filter p).map (fun q => q.1) ↔ ∃ q ∈ sp, q.1 = x ∧ p q = true := by
  simp only [List.mem_map, List.mem_filter]
  constructor
  · rintro ⟨q, ⟨hq, hp⟩, rfl⟩
    exact ⟨q, hq, rfl, hp⟩
  · rintro ⟨q, hq, rfl, hp⟩
    exact ⟨q, ⟨hq, hp⟩, rfl⟩

theorem mem_roleValues {sp : List (String × SubjProps)} {role x : String} :
    x ∈ roleValues sp role ↔
      ∃ q ∈ sp, ∃ v ∈ lookupList q.2.properties role, v.is_literal = false ∧ v.value = x := by
  simp only [roleValues, List.mem_flatMap, List.mem_map, List.mem_filter, Bool.not_eq_true']
  constructor
  · rintro ⟨q, hq, v, ⟨hv, hlit⟩, rfl⟩
    exact ⟨q, hq, v, hv, hlit, rfl⟩
  · rintro ⟨q, hq, v, hv, hlit, rfl⟩
    exact ⟨q, hq, v, ⟨hv, hlit⟩, rfl⟩

theorem mem_subjects_iff {ts : List Triple} {gs ps : List (String × String)}
    {sid : String} {entry : SubjectEntry} :
    (sid, entry) ∈ (convert_owl_to_json ts gs ps).subjects ↔
      ∃ pr, (sid, pr) ∈ collectTriples ts ∧ entry = buildEntry gs ps sid pr := by
  simp only [convert_owl_to_json, List.mem_map, Prod.mk.injEq]
  constructor
  · rintro ⟨q, hq, rfl, rfl⟩
    exact ⟨q.2, hq, rfl⟩
  · rintro ⟨pr, hpr, rfl⟩
    exact ⟨(sid, pr), hpr, rfl, rfl⟩

/-! ## Helper lemmas: blank nodes, the round-trip, the namespace table -/

theorem addTriple_blank {sp : List (String × SubjProps)} {t : Triple}
    (h : t.subj.isBlank = true ∨ t.obj.isBlank = true) : addTriple sp t = sp := by
  rcases ht : t.subj with s | n | s
  · rcases h with h | h
    · rw [ht] at h; cases h
    · rcases ho : t.obj with s2 | n2 | s2
      · rw [ho] at h; cases h
      · simp [addTriple, ht, ho, objData]
      · rw [ho] at h; cases h
  · simp [addTriple, ht]
  · simp [addTriple, ht]

theorem collect_filter_blank (ts : List Triple) :
    collectTriples ts =
      collectTriples (ts.filter (fun t => !t.subj.isBlank && !t.obj.isBlank)) := by
  have main : ∀ (l : List Triple) (sp : List (String × SubjProps)),
      l.foldl addTriple sp =
        (l.filter (fun t => !t.subj.isBlank && !t.obj.isBlank)).foldl addTriple sp := by
    intro l
    induction l with
    | nil => intro sp; rfl
    | cons t rest ih =>
      intro sp
      rw [List.filter_cons]
      split
      · rw [List.foldl_cons, List.foldl_cons]
        exact ih _
      · rename_i hk
        rw [List.foldl_cons, addTriple_blank ?_]
        · exact ih _
        · cases hsb : t.subj.isBlank <;> cases hob : t.obj.isBlank <;> simp_all
  exact main ts []

theorem docRoleValues_rebuild (sp : List (String × SubjProps))
    (gs ps : List (String × String)) (role : String) :
    docRoleValues (sp.map (fun q => (q.1, buildEntry gs ps q.1 q.2))) role =
      roleValues sp role := by
  unfold docRoleValues roleValues
  rw [List.flatMap_map]
  rfl

theorem filter_keys_rebuild (sp : List (String × SubjProps))
    (gs ps : List (String × String)) (p : String × SubjectEntry → Bool) :
    (((sp.map (fun q => (q.1, buildEntry gs ps q.1 q.2))).filter p).map (fun q => q.1)) =
      ((sp.filter (fun q => p (q.1, buildEntry gs ps q.1 q.2))).map (fun q => q.1)) := by
  rw [List.filter_map, List.map_map]
  rfl

theorem isPrefixOf_total {a : List Char} :
    ∀ {b u : List Char}, a.isPrefixOf u = true → b.isPrefixOf u = true →
      a.isPrefixOf b = true ∨ b.isPrefixOf a = true := by
  induction a with
  | nil => intro b u _ _; left; cases b <;> rfl
  | cons x xs ih =>
    intro b u ha hb
    cases u with
    | nil => cases ha
    | cons y ys =>
      cases b with
      | nil => right; rfl
      | cons z zs =>
        rw [List.isPrefixOf_cons₂] at ha hb
        obtain ⟨hxy, ha2⟩ := Bool.and_eq_true_iff.mp ha
        obtain ⟨hzy, hb2⟩ := Bool.and_eq_true_iff.mp hb
        have hxy2 : x = y := by simpa using hxy
        have hzy2 : z = y := by simpa using hzy
        subst hxy2
        subst hzy2
        rcases ih ha2 hb2 with h | h
        · left
          rw [List.isPrefixOf_cons₂]
          simpa using h
        · right
          rw [List.isPrefixOf_cons₂]
          simpa using h

/-- If a listed namespace matches the IRI, the scan finds exactly that
namespace: no IRI can start with two different entries of `NAMESPACES`. -/
theorem find?_namespaces {uri ns pfx : String}
    (hmem : (ns, pfx) ∈ NAMESPACES) (hpre : ns.data.isPrefixOf uri.data = true) :
    NAMESPACES.find? (fun nsp => nsp.1.data.isPrefixOf uri.data) = some (ns, pfx) := by
  have notpre : ∀ a b : String, a.data.isPrefixOf b.data = false →
      b.data.isPrefixOf a.data = false → b.data.isPrefixOf uri.data = true →
      a.data.isPrefixOf uri.data = false := by
    intro a b hab hba hb
    cases hval : a.data.isPrefixOf uri.data
    · rfl
    · rcases isPrefixOf_total hval hb with h | h
      · rw [hab] at h; cases h
      · rw [hba] at h; cases h
  simp only [NAMESPACES, List.mem_cons, List.not_mem_nil, or_false] at hmem
  rcases hmem with h | h | h | h | h <;> obtain ⟨rfl, rfl⟩ := Prod.mk.inj h
  · simp [NAMESPACES, List.find?, hpre]
  · simp [NAMESPACES, List.find?, hpre,
      notpre "http://myonto.com/PanResOntology.owl#"
        "http://www.w3.org/2001/XMLSchema#" (by decide) (by decide) hpre]
  · simp [NAMESPACES, List.find?, hpre,
      notpre "http://myonto.com/PanResOntology.owl#"
        "http://www.w3.org/1999/02/22-rdf-syntax-ns#" (by decide) (by decide) hpre,
      notpre "http://www.w3.org/2001/XMLSchema#"
        "http://www.w3.org/1999/02/22-rdf-syntax-ns#" (by decide) (by decide) hpre]
  · simp [NAMESPACES, List.find?, hpre,
      notpre "http://myonto.com/PanResOntology.owl#"
        "http://www.w3.org/2000/01/rdf-schema#" (by decide) (by decide) hpre,
      notpre "http://www.w3.org/2001/XMLSchema#"
        "http://www.w3.org/2000/01/rdf-schema#" (by decide) (by decide) hpre,
      notpre "http://www.w3.org/1999/02/22-rdf-syntax-ns#"
        "http://www.w3.org/2000/01/rdf-schema#" (by decide) (by decide) hpre]
  · simp [NAMESPACES, List.find?, hpre,
      notpre "http://myonto.com/PanResOntology.owl#"
        "http://www.w3.org/2002/07/owl#" (by decide) (by decide) hpre,
      notpre "http://www.w3.org/2001/XMLSchema#"
        "http://www.w3.org/2002/07/owl#" (by decide) (by decide) hpre,
      notpre "http://www.w3.org/1999/02/22-rdf-syntax-ns#"
        "http://www.w3.org/2002/07/owl#" (by decide) (by decide) hpre,
      notpre "http://www.w3.org/2000/01/rdf-schema#"
        "http://www.w3.org/2002/07/owl#" (by decide) (by decide) hpre]

theorem empty_append_str (s : String) : "" ++ s = s := by
  cases s with
  | mk l => rfl

/-! ## Claim theorems -/

/-- C3. For every IRI: if it starts with a namespace of the `NAMESPACES` table,
`clean_uri` returns that namespace's short prefix (empty for the ontology base)
concatenated with the local fragment (the text after the last `#` when the IRI
contains `#`, else after the last `/`); if no namespace matches, the IRI is
returned unchanged.  `clean_uri` is a total Lean function, so it has no error
conditions. -/
theorem clean_uri_spec (uri_str : String) :
    (∀ ns pfx, (ns, pfx) ∈ NAMESPACES → ns.data.isPrefixOf uri_str.data = true →
        clean_uri uri_str = pfx ++ fragmentOf uri_str)
    ∧ ((∀ nsp ∈ NAMESPACES, nsp.1.data.isPrefixOf uri_str.data = false) →
        clean_uri uri_str = uri_str) := by
  constructor
  · intro ns pfx hmem hpre
    unfold clean_uri
    rw [find?_namespaces hmem hpre]
    show (if pfx = "" then fragmentOf uri_str else pfx ++ fragmentOf uri_str)
        = pfx ++ fragmentOf uri_str
    by_cases hp : pfx = ""
    · subst hp
      rw [if_pos rfl, empty_append_str]
    · rw [if_neg hp]
  · intro h
    unfold clean_uri
    have hnone : NAMESPACES.find? (fun nsp => nsp.1.data.isPrefixOf uri_str.data) = none :=
      List.find?_eq_none.mpr (fun x hx => by rw [h x hx]; simp)
    rw [hnone]

/-- Witness for C3: a base-namespace IRI, an RDF-namespace IRI, and an
unmatched IRI, all resolved through `clean_uri_spec` at concrete inputs. -/
theorem clean_uri_spec_witness :
    clean_uri "http://myonto.com/PanResOntology.owl#PanGene" = "PanGene" ∧
    clean_uri "http://www.w3.org/1999/02/22-rdf-syntax-ns#type" = "rdf:type" ∧
    clean_uri "ex:Gene1" = "ex:Gene1" := by
  refine ⟨?_, ?_, ?_⟩
  · rw [(clean_uri_spec "http://myonto.com/PanResOntology.owl#PanGene").1
      "http://myonto.com/PanResOntology.owl#" "" (by decide) (by decide)]
    decide
  · rw [(clean_uri_spec "http://www.w3.org/1999/02/22-rdf-syntax-ns#type").1
      "http://www.w3.org/1999/02/22-rdf-syntax-ns#" "rdf:" (by decide) (by decide)]
    decide
  · exact (clean_uri_spec "ex:Gene1").2 (by decide)

/-- C9. `parse_fasta` on an existing file raises (`IndexError` from
`line[1:].split()[0]`) if and only if some line of the file strips to the bare
`">"`; on every file without such a line the loop completes and a mapping is
returned (the result is not the error value). -/
theorem parse_fasta_bare_header_crash (lines : List String) :
    pyParseFasta lines = Except.error () ↔ ∃ l ∈ lines, stripChars l.data = ['>'] :=
  parseFastaLines_error_iff lines none [] []

/-- C8. A missing FASTA file yields the warning and an empty mapping (no
exception), and the run continues: every subject entry built with empty
sequence mappings carries no `gene_sequence` and no `protein_sequence`
field. -/
theorem parse_fasta_missing_file (ts : List Triple) (sid : String) (entry : SubjectEntry)
    (h : (sid, entry) ∈ (convert_owl_to_json ts [] []).subjects) :
    parse_fasta none = (true, Except.ok []) ∧
      entry.gene_sequence = none ∧ entry.protein_sequence = none := by
  obtain ⟨pr, _, rfl⟩ := mem_subjects_iff.mp h
  exact ⟨rfl, rfl, rfl⟩

/-- Witness for C8 at the concrete scenario graph. -/
theorem parse_fasta_missing_file_witness :
    parse_fasta none = (true, Except.ok []) ∧
      entryGene1.gene_sequence = none ∧ entryGene1.protein_sequence = none :=
  parse_fasta_missing_file ts0 "ex:Gene1" entryGene1 (by decide)

/-- C5. Every subject record's `label` equals the value of the first
`rdfs:label` property entry when that property is present and non-empty, and
the subject's own (shortened) identifier otherwise; every record therefore has
a label. -/
theorem label_resolution (ts : List Triple) (gs ps : List (String × String))
    (sid : String) (entry : SubjectEntry)
    (h : (sid, entry) ∈ (convert_owl_to_json ts gs ps).subjects) :
    entry.id = sid ∧
      entry.label = (match lookupList entry.properties "rdfs:label" with
        | [] => sid
        | v :: _ => v.value) := by
  obtain ⟨pr, _, rfl⟩ := mem_subjects_iff.mp h
  exact ⟨rfl, rfl⟩

/-- Witness for C5: `Beta` carries the literal label `"Beta-lactamase"`, not
its identifier; `ex:Gene1` has no `rdfs:label` and falls back to its
identifier. -/
theorem label_resolution_witness :
    entryBeta.label = "Beta-lactamase" ∧ entryGene1.label = "ex:Gene1" := by
  constructor
  · have h := (label_resolution ts0 [] [] "Beta" entryBeta (by decide)).2
    rw [h]
    decide
  · have h := (label_resolution ts0 [] [] "ex:Gene1" entryGene1 (by decide)).2
    rw [h]
    decide

/-- Counterexample for C4 as stated.  The claim conditions truncation on a
`_v` marker followed LATER by an `_identical` marker.  In the header token
`gene_identical_variant` there is no `_identical` after the `_v` (of
`_variant`), so the claim predicts the identifier is the token unchanged; the
script only tests that both substrings occur somewhere and truncates to
`gene_identical`. -/
theorem fasta_header_rule_cex :
    vThenIdentical "gene_identical_variant".data = false ∧
    pyParseFasta [">gene_identical_variant", "AAAA"] =
      Except.ok [("gene_identical", "AAAA")] ∧
    ("gene_identical" : String) ≠ "gene_identical_variant" :=
  ⟨by decide, by decide, by decide⟩

/-- C4 (amended).  For a FASTA record, the identifier is the first
whitespace-delimited token of the stripped header after `>`, run through the
dedup rule `fastaId`: truncate at the first `_v` when the token contains both
a `_v` substring and an `_identical` substring ANYWHERE (in either order),
otherwise keep the token; non-header lines are whitespace-stripped and
concatenated into the record's sequence. -/
theorem fasta_header_rule (hline : String) (body : List String)
    (t : List Char) (rest : List (List Char))
    (hhead : (stripChars hline.data).head? = some '>')
    (htok : tokens (stripChars hline.data).tail = t :: rest)
    (hbody : ∀ l ∈ body, (stripChars l.data).head? ≠ some '>')
    (hid : fastaId ⟨t⟩ ≠ "") :
    pyParseFasta (hline :: body) =
      Except.ok [(fastaId ⟨t⟩, ⟨(body.map (fun l => stripChars l.data)).flatten⟩)] := by
  unfold pyParseFasta
  simp only [parseFastaLines]
  rw [if_pos hhead, htok]
  show parseFastaLines body (some (fastaId ⟨t⟩)) [] (saveSeq [] none []) = _
  rw [parseFastaLines_no_header body _ _ _ hbody]
  simp [saveSeq, dictInsert, hid]

/-- Witness for C4 at the spec's scenario: header `>pan_42_v1.0.1_identical`
with sequence lines `ACGT`, `GGCC` yields exactly `{"pan_42": "ACGTGGCC"}`. -/
theorem fasta_header_rule_witness :
    pyParseFasta [">pan_42_v1.0.1_identical", "ACGT", "GGCC"] =
      Except.ok [("pan_42", "ACGTGGCC")] := by
  have h := fasta_header_rule ">pan_42_v1.0.1_identical" ["ACGT", "GGCC"]
    "pan_42_v1.0.1_identical".data [] (by decide) (by decide) (by decide) (by decide)
  exact h.trans (by decide)

/-- C1. For every subject of the output document, membership in each of the
six category lists is exactly: `PanGene` iff the type list meets
`pangene_types`; `OriginalGene` iff the type list contains `"OriginalGene"`;
and each role category iff the identifier occurs as a non-literal object value
of the corresponding role predicate in some collected subject's properties. -/
theorem category_membership (ts : List Triple) (gs ps : List (String × String))
    (sid : String) (entry : SubjectEntry)
    (h : (sid, entry) ∈ (convert_owl_to_json ts gs ps).subjects) :
    (sid ∈ (convert_owl_to_json ts gs ps).categories.PanGene ↔
        ∃ t ∈ entry.types, t ∈ pangene_types)
    ∧ (sid ∈ (convert_owl_to_json ts gs ps).categories.OriginalGene ↔
        "OriginalGene" ∈ entry.types)
    ∧ (sid ∈ (convert_owl_to_json ts gs ps).categories.AntibioticClass ↔
        roleOccurs ts "has_resistance_class" sid)
    ∧ (sid ∈ (convert_owl_to_json ts gs ps).categories.Phenotype ↔
        roleOccurs ts "has_predicted_phenotype" sid)
    ∧ (sid ∈ (convert_owl_to_json ts gs ps).categories.Mechanism ↔
        roleOccurs ts "has_mechanism_of_resistance" sid)
    ∧ (sid ∈ (convert_owl_to_json ts gs ps).categories.Database ↔
        roleOccurs ts "is_from_database" sid) := by
  obtain ⟨pr, hpr, rfl⟩ := mem_subjects_iff.mp h
  have hnd := keys_nodup_collect ts
  have types_eq : (buildEntry gs ps sid pr).types = pr.types := rfl
  have role_case : ∀ role : String,
      sid ∈ ((collectTriples ts).filter
          (fun q => (roleValues (collectTriples ts) role).contains q.1)).map (fun q => q.1) ↔
        roleOccurs ts role sid := by
    intro role
    rw [mem_filter_keys]
    constructor
    · rintro ⟨q, hq, hq1, hp⟩
      rw [hq1] at hp
      exact mem_roleValues.mp (List.elem_iff.mp hp)
    · intro hro
      exact ⟨(sid, pr), hpr, rfl, List.elem_iff.mpr (mem_roleValues.mpr hro)⟩
  refine ⟨?_, ?_, ?_, ?_, ?_, ?_⟩
  · simp only [convert_owl_to_json]
    rw [mem_filter_keys, types_eq]
    constructor
    · rintro ⟨q, hq, hq1, hp⟩
      have hmem2 : (sid, q.2) ∈ collectTriples ts := by rw [← hq1]; exact hq
      have hq2 : q.2 = pr := key_inj hnd hmem2 hpr
      rw [hq2] at hp
      obtain ⟨t, ht, hcont⟩ := List.any_eq_true.mp hp
      exact ⟨t, ht, List.elem_iff.mp hcont⟩
    · rintro ⟨t, ht, htp⟩
      exact ⟨(sid, pr), hpr, rfl, List.any_eq_true.mpr ⟨t, ht, List.elem_iff.mpr htp⟩⟩
  · simp only [convert_owl_to_json]
    rw [mem_filter_keys, types_eq]
    constructor
    · rintro ⟨q, hq, hq1, hp⟩
      have hmem2 : (sid, q.2) ∈ collectTriples ts := by rw [← hq1]; exact hq
      have hq2 : q.2 = pr := key_inj hnd hmem2 hpr
      rw [hq2] at hp
      exact List.elem_iff.mp hp
    · intro ht
      exact ⟨(sid, pr), hpr, rfl, List.elem_iff.mpr ht⟩
  · simp only [convert_owl_to_json]
    exact role_case "has_resistance_class"
  · simp only [convert_owl_to_json]
    exact role_case "has_predicted_phenotype"
  · simp only [convert_owl_to_json]
    exact role_case "has_mechanism_of_resistance"
  · simp only [convert_owl_to_json]
    exact role_case "is_from_database"

/-- Witness for C1 at the scenario graph: `ex:Gene1` is in `PanGene` through
its type, `Beta` is in `AntibioticClass` through the role predicate. -/
theorem category_membership_witness :
    "ex:Gene1" ∈ (convert_owl_to_json ts0 [] []).categories.PanGene ∧
    "Beta" ∈ (convert_owl_to_json ts0 [] []).categories.AntibioticClass := by
  constructor
  · exact ((category_membership ts0 [] [] "ex:Gene1" entryGene1 (by decide)).1).mpr
      ⟨"PanGene", by decide, by decide⟩
  · exact ((category_membership ts0 [] [] "Beta" entryBeta (by decide)).2.2.1).mpr
      ⟨("ex:Gene1", ⟨["PanGene"],
        [("rdf:type", [⟨"PanGene", false⟩]),
         ("has_resistance_class", [⟨"Beta", false⟩])]⟩), by decide,
       ⟨"Beta", false⟩, by decide, rfl, rfl⟩

/-- C2. Referential completeness: every identifier occurring in any of the six
category lists is a key of the `subjects` mapping. -/
theorem categories_referential (ts : List Triple) (gs ps : List (String × String)) (x : String)
    (h : x ∈ (convert_owl_to_json ts gs ps).categories.PanGene
       ∨ x ∈ (convert_owl_to_json ts gs ps).categories.OriginalGene
       ∨ x ∈ (convert_owl_to_json ts gs ps).categories.AntibioticClass
       ∨ x ∈ (convert_owl_to_json ts gs ps).categories.Phenotype
       ∨ x ∈ (convert_owl_to_json ts gs ps).categories.Mechanism
       ∨ x ∈ (convert_owl_to_json ts gs ps).categories.Database) :
    ∃ e, (x, e) ∈ (convert_owl_to_json ts gs ps).subjects := by
  simp only [convert_owl_to_json] at h ⊢
  rcases h with h | h | h | h | h | h <;>
  · rw [mem_filter_keys] at h
    obtain ⟨q, hq, rfl, _⟩ := h
    exact ⟨buildEntry gs ps q.1 q.2, List.mem_map_of_mem _ hq⟩

/-- Witness for C2: `Beta` sits in `AntibioticClass` purely through a role
predicate, and indeed has a `subjects` entry. -/
theorem categories_referential_witness :
    ∃ e, ("Beta", e) ∈ (convert_owl_to_json ts0 [] []).subjects :=
  categories_referential ts0 [] [] "Beta" (Or.inr (Or.inr (Or.inl (by decide))))

/-- C10. No category list of the output document contains duplicate
identifiers: the builder iterates once over the distinct keys of the
aggregated subject mapping and appends each subject to a category at most
once. -/
theorem categories_nodup (ts : List Triple) (gs ps : List (String × String)) :
    (convert_owl_to_json ts gs ps).categories.PanGene.Nodup
    ∧ (convert_owl_to_json ts gs ps).categories.OriginalGene.Nodup
    ∧ (convert_owl_to_json ts gs ps).categories.AntibioticClass.Nodup
    ∧ (convert_owl_to_json ts gs ps).categories.Phenotype.Nodup
    ∧ (convert_owl_to_json ts gs ps).categories.Mechanism.Nodup
    ∧ (convert_owl_to_json ts gs ps).categories.Database.Nodup := by
  have main : ∀ p : String × SubjProps → Bool,
      (((collectTriples ts).filter p).map (fun q => q.1)).Nodup := fun p =>
    (keys_nodup_collect ts).sublist ((List.filter_sublist (collectTriples ts)).map _)
  refine ⟨?_, ?_, ?_, ?_, ?_, ?_⟩ <;>
  · simp only [convert_owl_to_json]
    exact main _

/-- C6. Triples with blank-node subjects or blank-node objects contribute
nothing: the collected structure, the output `subjects` mapping and the output
`categories` are the same as for the graph with those triples removed, so
blank nodes never appear in the output document. -/
theorem blank_nodes_excluded (ts : List Triple) (gs ps : List (String × String)) :
    collectTriples ts =
      collectTriples (ts.filter (fun t => !t.subj.isBlank && !t.obj.isBlank))
    ∧ (convert_owl_to_json ts gs ps).subjects =
      (convert_owl_to_json (ts.filter (fun t => !t.subj.isBlank && !t.obj.isBlank)) gs ps).subjects
    ∧ (convert_owl_to_json ts gs ps).categories =
      (convert_owl_to_json (ts.filter (fun t => !t.subj.isBlank && !t.obj.isBlank)) gs ps).categories := by
  refine ⟨collect_filter_blank ts, ?_, ?_⟩ <;>
  · simp only [convert_owl_to_json]
    rw [← collect_filter_blank ts]

/-- C7. Round-trip: re-deriving the six category lists from the produced
document's own subject entries (the §4.4 role scan over the output
`properties` plus the type-based rules) reproduces the document's `categories`
exactly. -/
theorem roundtrip_categories (ts : List Triple) (gs ps : List (String × String)) :
    rederiveCategories (convert_owl_to_json ts gs ps).subjects =
      (convert_owl_to_json ts gs ps).categories := by
  simp only [convert_owl_to_json, rederiveCategories]
  simp only [docRoleValues_rebuild, filter_keys_rebuild]
  rfl

end PanRes
